import Mathlib

/-!
# Verification of the reminder engine of `rbpi-reminder`

Shallow embedding of the event-lifecycle / reminder-decision core of the
repository (files `src/reminder.go`, `src/log.go`, `src/utils.go`,
`src/config.go`).

Time model: a Go `time.Time` instant is embedded as an `Int`, the number of
nanoseconds since Go's zero time (January 1, year 1 UTC).  Go's
`t.IsZero()` is `t = 0`, `a.After(b)` is `b < a`, `a.Before(b)` is `a < b`,
`a.Add(d)` is `a + d`, `a.Sub(b)` is `a - b` (a `time.Duration`, likewise an
`Int` of nanoseconds).  `time.Time.In(loc)` changes only the presentation
location of an instant, never the instant itself, so on this embedding it is
the identity.  Go's division of `time.Duration` (an `int64`) truncates toward
zero, which is `Int.tdiv`.  `t.Truncate(24 * time.Hour)` rounds `t` down to a
multiple of 24h since the zero time, which is floor division `Int.fdiv`.
-/

/-- Nanoseconds in one `time.Minute`. -/
def timeMinute : Int := 60000000000

/-- Nanoseconds in `24 * time.Hour`, the truncation unit of `scheduledForToday`. -/
def timeDay : Int := 86400000000000

/-- Go `a.After(b)`. -/
def timeAfter (a b : Int) : Bool := b < a

/-- Go `a.Before(b)`. -/
def timeBefore (a b : Int) : Bool := a < b

/-- Go `t.IsZero()`. -/
def timeIsZero (t : Int) : Bool := t == 0

/-- Go `t.Truncate(24 * time.Hour)`: round down to a multiple of a day since the zero time. -/
def truncateDay (t : Int) : Int := Int.fdiv t timeDay * timeDay

/-- Embedding of `CalendarEvent` from `src/calreader.go`: the immutable remote snapshot. -/
structure CalendarEvent where
  ID : String
  StartTime : Int
  EndTime : Int
  TimeZone : String
  Description : String
deriving Repr, DecidableEq

/-- Embedding of `LocalEvent` from `src/log.go`: a calendar event plus the four lifecycle fields. -/
structure LocalEvent where
  Event : CalendarEvent
  StartAnnounced : Bool
  CheckStartAnnounced : Bool
  EndAnnounced : Bool
  LastTimeReminded : Int
deriving Repr, DecidableEq

/-- Embedding of `DefaultNotificationRepeats` from `src/config.go`. -/
def DefaultNotificationRepeats : Int := 3

/-- The normalization `loadConfig` applies to `SysConfig.NotificationRepeats`
(`src/config.go`): a non-positive configured value falls back to the default 3. -/
def normalizeRepeats (n : Int) : Int :=
  if n ≤ 0 then DefaultNotificationRepeats else n

/-- Embedding of `(*LocalEvent).scheduledForToday` from `src/log.go`: both the event start
time and `now` are truncated to midnight and compared. -/
def scheduledForToday (e : LocalEvent) (now : Int) : Bool :=
  truncateDay e.Event.StartTime == truncateDay now

/-- Embedding of `(*LocalEvent).scheduledForNow` from `src/log.go`: false for a zero start
time, otherwise `now.After(start) && now.Before(end)`. -/
def scheduledForNow (e : LocalEvent) (now : Int) : Bool :=
  if timeIsZero e.Event.StartTime then
    false
  else
    timeAfter now e.Event.StartTime && timeBefore now e.Event.EndTime

/-- Embedding of `(*LocalEvent).scheduledNearEnd` from `src/log.go`: false for a zero end
time, otherwise `now.After(end - time.Minute) && now.Before(end + time.Minute)`. -/
def scheduledNearEnd (e : LocalEvent) (now : Int) : Bool :=
  if timeIsZero e.Event.EndTime then
    false
  else
    timeAfter now (e.Event.EndTime - timeMinute) &&
      timeBefore now (e.Event.EndTime + timeMinute)

/-- Embedding of `shouldAnnounceEventStart` from `src/reminder.go`. -/
def shouldAnnounceEventStart (e : LocalEvent) (now : Int) : Bool :=
  !e.StartAnnounced && scheduledForToday e now && scheduledForNow e now

/-- Embedding of `shouldCheckEventStarted` from `src/reminder.go`: guard, then
`time.Now().After(e.Event.StartTime.Add(time.Minute))`. -/
def shouldCheckEventStarted (e : LocalEvent) (now : Int) : Bool :=
  if !scheduledForToday e now || !e.StartAnnounced || e.CheckStartAnnounced then
    false
  else
    timeAfter now (e.Event.StartTime + timeMinute)

/-- Embedding of `shouldAnnounceEventEnd` from `src/reminder.go`. -/
def shouldAnnounceEventEnd (e : LocalEvent) (now : Int) : Bool :=
  !e.EndAnnounced && scheduledForToday e now && scheduledNearEnd e now

/-- Embedding of `shouldRemindEvent` from `src/reminder.go`, with the global
`SysConfig.NotificationRepeats` passed explicitly.  The reminder interval is
`(end - start) / repeats` in Go `int64` (truncating) division. -/
def shouldRemindEvent (repeats : Int) (e : LocalEvent) (now : Int) : Bool :=
  if e.EndAnnounced || timeIsZero e.Event.EndTime ||
      timeBefore now e.Event.StartTime || timeAfter now e.Event.EndTime then
    false
  else
    let reminderInterval := Int.tdiv (e.Event.EndTime - e.Event.StartTime) repeats
    timeAfter now (e.LastTimeReminded + reminderInterval)

/-- Embedding of `(*LocalEvent).setStartAnnounced` (in-memory effect). -/
def setStartAnnounced (e : LocalEvent) : LocalEvent :=
  { e with StartAnnounced := true }

/-- Embedding of `(*LocalEvent).setStartChecked` (in-memory effect). -/
def setStartChecked (e : LocalEvent) : LocalEvent :=
  { e with CheckStartAnnounced := true }

/-- Embedding of `(*LocalEvent).setEndAnnounced` (in-memory effect). -/
def setEndAnnounced (e : LocalEvent) : LocalEvent :=
  { e with EndAnnounced := true }

/-- Embedding of `(*LocalEvent).setReminded` (in-memory effect): `LastTimeReminded = time.Now()`. -/
def setReminded (e : LocalEvent) (now : Int) : LocalEvent :=
  { e with LastTimeReminded := now }

/-- The four notification kinds a reminder pass can fire. -/
inductive Decision
  | announceStart
  | checkStarted
  | remind
  | announceEnd
deriving Repr, DecidableEq

/-- The body of the per-event loop of `remindCurrentEvents` (`src/reminder.go`):
the four conditions are tried in order and each firing branch `continue`s,
skipping the remaining conditions for this event and tick.  Returns the
decisions fired for this event in this pass together with the updated event. -/
def tickEvent (repeats : Int) (e : LocalEvent) (now : Int) :
    List Decision × LocalEvent :=
  if shouldAnnounceEventStart e now then
    ([Decision.announceStart], setReminded (setStartAnnounced e) now)
  else if shouldCheckEventStarted e now then
    ([Decision.checkStarted], setStartChecked e)
  else if shouldRemindEvent repeats e now then
    ([Decision.remind], setReminded e now)
  else if shouldAnnounceEventEnd e now then
    ([Decision.announceEnd], setEndAnnounced e)
  else
    ([], e)

/-- The single decision (if any) one pass takes for one event. -/
def decideEvent (repeats : Int) (e : LocalEvent) (now : Int) : Option Decision :=
  (tickEvent repeats e now).1.head?

/-!
## The Event Store (`src/log.go`)

One JSON file per event identifier under the events directory; every record
file written by the store is named `<ID>.json`, so the store is embedded as an
association list keyed by the event identifier.  A stored payload either
unmarshals into a `LocalEvent` or is corrupt (`json.Unmarshal` fails).
-/

/-- The on-disk payload of one record file: either it unmarshals into a
`LocalEvent`, or it is corrupt and `loadEvent` fails on it. -/
inductive RawRecord
  | corrupt
  | valid (e : LocalEvent)
deriving Repr, DecidableEq

/-- The events directory: one record per identifier, in directory order. -/
abbrev Store : Type := List (String × RawRecord)

/-- Directory lookup of the record file of one identifier. -/
def findRecord : Store → String → Option RawRecord
  | [], _ => none
  | (k, v) :: rest, id => if k = id then some v else findRecord rest id

/-- Embedding of `os.WriteFile` on the record file of an identifier: overwrite the existing
file in place, or create a new one. -/
def writeStore : Store → String → RawRecord → Store
  | [], k, v => [(k, v)]
  | (k', v') :: rest, k, v =>
    if k' = k then (k, v) :: rest else (k', v') :: writeStore rest k v

/-- Embedding of `loadEvent` from `src/log.go`: read the record file of an identifier and
unmarshal it; fails when the file is absent or the payload is corrupt. -/
def loadEvent (store : Store) (id : String) : Except String LocalEvent :=
  match findRecord store id with
  | none => Except.error "failed to read event file"
  | some RawRecord.corrupt => Except.error "failed to unmarshal event file"
  | some (RawRecord.valid e) => Except.ok e

/-- The `LocalEvent` that `saveEventLocally` (`src/log.go`) marshals: the fresh
`CalendarEvent` wrapped with zeroed lifecycle fields, except that when a record
with the same identifier already loads successfully its four lifecycle fields
are copied over (carry-forward). -/
def savedRecord (store : Store) (event : CalendarEvent) : LocalEvent :=
  let base : LocalEvent :=
    { Event := event, StartAnnounced := false, CheckStartAnnounced := false,
      EndAnnounced := false, LastTimeReminded := 0 }
  match loadEvent store event.ID with
  | Except.ok existing =>
    { base with
      StartAnnounced := existing.StartAnnounced,
      CheckStartAnnounced := existing.CheckStartAnnounced,
      EndAnnounced := existing.EndAnnounced,
      LastTimeReminded := existing.LastTimeReminded }
  | Except.error _ => base

/-- Embedding of `saveEventLocally` from `src/log.go`: build the carried-forward record and
write it to `<ID>.json`. -/
def saveEventLocally (store : Store) (event : CalendarEvent) : Store :=
  writeStore store event.ID (RawRecord.valid (savedRecord store event))

/-- Embedding of `removeLocalEventsNotInCalendar` from `src/log.go`: delete every record
file whose identifier is not the identifier of some event of the given
calendar batch. -/
def removeLocalEventsNotInCalendar (store : Store) (events : List CalendarEvent) : Store :=
  store.filter (fun kv => events.any (fun event => event.ID == kv.1))

/-- Embedding of `syncLocalEvents` from `src/log.go`: save every remote event (step 1), then
prune the records whose identifier the batch no longer contains (step 2). -/
def syncLocalEvents (store : Store) (events : List CalendarEvent) : Store :=
  removeLocalEventsNotInCalendar (events.foldl saveEventLocally store) events

/-- The per-file keep condition of `loadTodayEvents` (`src/log.go`): a loaded
event is kept iff it is scheduled for today and `now` is not after its end
time.  (The second end-time check after the time-zone fix compares the same
instants, since `time.Time.In` never changes the instant.) -/
def keptByLoad (e : LocalEvent) (now : Int) : Bool :=
  scheduledForToday e now && !timeAfter now e.Event.EndTime

/-- Embedding of `loadTodayEvents` from `src/log.go`: load every file of the events
directory in order; the first file that fails to load aborts the whole call
with its error; a loaded event is skipped when it is not scheduled for today
or already finished; when the event carries a time zone its instants are
re-expressed in that zone (identity on instants) and the finished check is
repeated. -/
def loadTodayEvents : List RawRecord → Int → Except String (List LocalEvent)
  | [], _ => Except.ok []
  | RawRecord.corrupt :: _, _ => Except.error "failed to load event"
  | RawRecord.valid e :: rest, now =>
    if !scheduledForToday e now || timeAfter now e.Event.EndTime then
      loadTodayEvents rest now
    else if e.Event.TimeZone ≠ "" && timeAfter now e.Event.EndTime then
      loadTodayEvents rest now
    else
      match loadTodayEvents rest now with
      | Except.error msg => Except.error msg
      | Except.ok tail => Except.ok (e :: tail)

/-!
## File-system write traces (`src/utils.go`, `src/log.go`)

For the write-mechanism claim, the file-system operations a write performs are
recorded as a trace.
-/

/-- One file-system operation performed by a write path. -/
inductive FsOp (α : Type)
  | writeFile (path : String) (data : α)
  | rename (src dst : String)
deriving Repr, DecidableEq

/-- Embedding of `writeFileAtomically` from `src/utils.go` (success path): write the data to
`<path>.tmp.<random int>`, then rename the temporary file over the target. -/
def writeFileAtomically (path : String) (tmpTag : String) (data : α) : List (FsOp α) :=
  [FsOp.writeFile (path ++ ".tmp." ++ tmpTag) data,
   FsOp.rename (path ++ ".tmp." ++ tmpTag) path]

/-- The file-system trace of `saveEventLocally` (`src/log.go`): one plain
`os.WriteFile` of the marshalled record directly to `<ID>.json`. -/
def saveEventLocallyOps (store : Store) (event : CalendarEvent) : List (FsOp LocalEvent) :=
  [FsOp.writeFile (event.ID ++ ".json") (savedRecord store event)]

/-- The file-system trace of `(*LocalEvent).updateEvent` (`src/log.go`): one
plain `os.WriteFile` of the marshalled record directly to `<ID>.json`. -/
def updateEventOps (e : LocalEvent) : List (FsOp LocalEvent) :=
  [FsOp.writeFile (e.Event.ID ++ ".json") e]

/-- Modelled from the spec: the write mechanism the spec mandates — "writing to
a temporary file and then renaming it over the target".  A trace satisfies it
when it consists of a write to a path other than the target followed by a
rename of that path onto the target. -/
def specAtomicWrite : List (FsOp α) → String → Bool
  | [FsOp.writeFile p _, FsOp.rename src dst], target =>
    p == src && dst == target && !(p == target)
  | _, _ => false

/-!
## Helper lemmas: the firing conditions, spelled out arithmetically
-/

/-- Arithmetic characterization of `shouldAnnounceEventStart`: the start window
is the open interval `(start, end)` and a zero start time never fires. -/
theorem shouldAnnounceEventStart_iff (e : LocalEvent) (now : Int) :
    shouldAnnounceEventStart e now = true ↔
      (e.StartAnnounced = false ∧ scheduledForToday e now = true ∧
       e.Event.StartTime ≠ 0 ∧ e.Event.StartTime < now ∧ now < e.Event.EndTime) := by
  cases hz : timeIsZero e.Event.StartTime <;>
    simp [shouldAnnounceEventStart, scheduledForNow, timeAfter, timeBefore, hz,
      Bool.and_eq_true, Bool.not_eq_true', and_assoc] <;>
    simp [timeIsZero] at hz <;> simp [hz]

/-- Arithmetic characterization of `shouldCheckEventStarted`: the check fires
only strictly after `start + 1 minute`. -/
theorem shouldCheckEventStarted_iff (e : LocalEvent) (now : Int) :
    shouldCheckEventStarted e now = true ↔
      (scheduledForToday e now = true ∧ e.StartAnnounced = true ∧
       e.CheckStartAnnounced = false ∧ e.Event.StartTime + timeMinute < now) := by
  cases ht : scheduledForToday e now <;>
  cases hs : e.StartAnnounced <;>
  cases hc : e.CheckStartAnnounced <;>
    simp [shouldCheckEventStarted, timeAfter, ht, hs, hc]

/-- Arithmetic characterization of `shouldAnnounceEventEnd`: the end window is
the open interval `(end - 1min, end + 1min)` and a zero end time never fires. -/
theorem shouldAnnounceEventEnd_iff (e : LocalEvent) (now : Int) :
    shouldAnnounceEventEnd e now = true ↔
      (e.EndAnnounced = false ∧ scheduledForToday e now = true ∧
       e.Event.EndTime ≠ 0 ∧
       e.Event.EndTime - timeMinute < now ∧ now < e.Event.EndTime + timeMinute) := by
  cases hz : timeIsZero e.Event.EndTime <;>
    simp [shouldAnnounceEventEnd, scheduledNearEnd, timeAfter, timeBefore, hz,
      Bool.and_eq_true, Bool.not_eq_true', and_assoc] <;>
    simp [timeIsZero] at hz <;> simp [hz]

/-- Arithmetic characterization of `shouldRemindEvent`: the rule fires iff the
end is not announced, an end time is defined, `start ≤ now ≤ end`, and `now` is
strictly after `LastTimeReminded + (end - start) / repeats`. -/
theorem shouldRemindEvent_iff (repeats : Int) (e : LocalEvent) (now : Int) :
    shouldRemindEvent repeats e now = true ↔
      (e.EndAnnounced = false ∧ e.Event.EndTime ≠ 0 ∧
       e.Event.StartTime ≤ now ∧ now ≤ e.Event.EndTime ∧
       e.LastTimeReminded + Int.tdiv (e.Event.EndTime - e.Event.StartTime) repeats < now) := by
  cases ha : e.EndAnnounced <;>
  cases hz : timeIsZero e.Event.EndTime <;>
    simp [shouldRemindEvent, timeAfter, timeBefore, ha, hz, not_or] <;>
    simp [timeIsZero] at hz <;> simp [hz] <;> omega

/-- Priority: a true `shouldCheckEventStarted` forces `StartAnnounced = true`,
so `shouldAnnounceEventStart` is false at the same event and instant. -/
theorem checkStarted_precludes_announceStart (e : LocalEvent) (now : Int)
    (h : shouldCheckEventStarted e now = true) :
    shouldAnnounceEventStart e now = false := by
  rcases (shouldCheckEventStarted_iff e now).mp h with ⟨_, hs, _, _⟩
  simp [shouldAnnounceEventStart, hs]

/-- Unfolding of `decideEvent` for the first priority rule. -/
theorem decideEvent_eq_announceStart (repeats : Int) (e : LocalEvent) (now : Int) :
    decideEvent repeats e now = some Decision.announceStart ↔
      shouldAnnounceEventStart e now = true := by
  cases h1 : shouldAnnounceEventStart e now <;>
  cases h2 : shouldCheckEventStarted e now <;>
  cases h3 : shouldRemindEvent repeats e now <;>
  cases h4 : shouldAnnounceEventEnd e now <;>
    simp [decideEvent, tickEvent, h1, h2, h3, h4]

/-- Unfolding of `decideEvent` for the second priority rule. -/
theorem decideEvent_eq_checkStarted (repeats : Int) (e : LocalEvent) (now : Int) :
    decideEvent repeats e now = some Decision.checkStarted ↔
      (shouldAnnounceEventStart e now = false ∧ shouldCheckEventStarted e now = true) := by
  cases h1 : shouldAnnounceEventStart e now <;>
  cases h2 : shouldCheckEventStarted e now <;>
  cases h3 : shouldRemindEvent repeats e now <;>
  cases h4 : shouldAnnounceEventEnd e now <;>
    simp [decideEvent, tickEvent, h1, h2, h3, h4]

/-!
## C1: at most one decision per event per tick, in priority order
-/

/-- C1: one pass of `remindCurrentEvents` over one event fires at most one of
the four decisions, and whenever a later decision in the priority order
AnnounceStart, CheckStarted, Remind, AnnounceEnd fired, every earlier firing
condition was false for that event at that instant. -/
theorem tick_at_most_one_decision (repeats : Int) (e : LocalEvent) (now : Int) :
    (tickEvent repeats e now).1.length ≤ 1 ∧
    (Decision.checkStarted ∈ (tickEvent repeats e now).1 →
      shouldAnnounceEventStart e now = false) ∧
    (Decision.remind ∈ (tickEvent repeats e now).1 →
      shouldAnnounceEventStart e now = false ∧ shouldCheckEventStarted e now = false) ∧
    (Decision.announceEnd ∈ (tickEvent repeats e now).1 →
      shouldAnnounceEventStart e now = false ∧ shouldCheckEventStarted e now = false ∧
        shouldRemindEvent repeats e now = false) := by
  cases h1 : shouldAnnounceEventStart e now <;>
  cases h2 : shouldCheckEventStarted e now <;>
  cases h3 : shouldRemindEvent repeats e now <;>
  cases h4 : shouldAnnounceEventEnd e now <;>
    simp [tickEvent, h1, h2, h3, h4]

/-- Event at 10:00-11:00 (day 0), start announced but not yet checked;
the pass fires CheckStarted at 10:02. -/
def evW1 : LocalEvent :=
  { Event := { ID := "w1", StartTime := 36000000000000, EndTime := 39600000000000,
               TimeZone := "", Description := "task" },
    StartAnnounced := true, CheckStartAnnounced := false, EndAnnounced := false,
    LastTimeReminded := 36000000000000 }

/-- Event at 10:00-11:00 (day 0), start announced and checked, never reminded;
the pass fires Remind at 10:20. -/
def evW2 : LocalEvent :=
  { Event := { ID := "w2", StartTime := 36000000000000, EndTime := 39600000000000,
               TimeZone := "", Description := "task" },
    StartAnnounced := true, CheckStartAnnounced := true, EndAnnounced := false,
    LastTimeReminded := 0 }

/-- Event at 10:00-11:00 (day 0), start announced and checked, end not yet
announced; the pass fires AnnounceEnd 30 seconds after the end. -/
def evW3 : LocalEvent :=
  { Event := { ID := "w3", StartTime := 36000000000000, EndTime := 39600000000000,
               TimeZone := "", Description := "task" },
    StartAnnounced := true, CheckStartAnnounced := true, EndAnnounced := false,
    LastTimeReminded := 0 }

/-- Witness for C1: each exclusivity implication applied at a concrete event
and instant where the corresponding later decision actually fired. -/
theorem tick_at_most_one_decision_applied :
    shouldAnnounceEventStart evW1 36120000000000 = false ∧
    (shouldAnnounceEventStart evW2 37200000000000 = false ∧
      shouldCheckEventStarted evW2 37200000000000 = false) ∧
    (shouldAnnounceEventStart evW3 39630000000000 = false ∧
      shouldCheckEventStarted evW3 39630000000000 = false ∧
      shouldRemindEvent 3 evW3 39630000000000 = false) :=
  ⟨(tick_at_most_one_decision 3 evW1 36120000000000).2.1 (by decide),
   (tick_at_most_one_decision 3 evW2 37200000000000).2.2.1 (by decide),
   (tick_at_most_one_decision 3 evW3 39630000000000).2.2.2 (by decide)⟩

/-!
## C3: the AnnounceStart window
-/

/-- Event from 14:00 to 14:30 on day 0, nothing announced yet. -/
def evC3 : LocalEvent :=
  { Event := { ID := "c3", StartTime := 50400000000000, EndTime := 52200000000000,
               TimeZone := "", Description := "boundary" },
    StartAnnounced := false, CheckStartAnnounced := false, EndAnnounced := false,
    LastTimeReminded := 0 }

/-- C3 counterexample: at `now = start` exactly (start 14:00, end 14:30, same
calendar day) every condition of the claim holds — `StartAnnounced` is false,
the event is scheduled for today, and `now` lies in `[start, end)` — yet the
pass does not fire AnnounceStart, because `scheduledForNow` demands
`now.After(start)` strictly. -/
theorem announceStart_not_at_start_instant :
    evC3.StartAnnounced = false ∧
    scheduledForToday evC3 50400000000000 = true ∧
    evC3.Event.StartTime ≤ 50400000000000 ∧
    (50400000000000 : Int) < evC3.Event.EndTime ∧
    decideEvent 3 evC3 50400000000000 ≠ some Decision.announceStart := by decide

/-- C3 (amended): AnnounceStart fires iff `StartAnnounced` is false, the event
is scheduled for today, the start time is non-zero, and `now` lies in the OPEN
interval `(start, end)` — strictly after the start instant and strictly before
the end instant. -/
theorem announceStart_fires_iff (repeats : Int) (e : LocalEvent) (now : Int) :
    decideEvent repeats e now = some Decision.announceStart ↔
      (e.StartAnnounced = false ∧ scheduledForToday e now = true ∧
       e.Event.StartTime ≠ 0 ∧ e.Event.StartTime < now ∧ now < e.Event.EndTime) :=
  (decideEvent_eq_announceStart repeats e now).trans (shouldAnnounceEventStart_iff e now)

/-!
## C6: the CheckStarted delay
-/

/-- Event from 09:00 to 09:30 on day 0, start announced, check pending. -/
def evC6 : LocalEvent :=
  { Event := { ID := "c6", StartTime := 32400000000000, EndTime := 34200000000000,
               TimeZone := "", Description := "delay" },
    StartAnnounced := true, CheckStartAnnounced := false, EndAnnounced := false,
    LastTimeReminded := 0 }

/-- C6 counterexample: at `now = start + 1 minute` exactly every condition of
the claim holds — scheduled today, `StartAnnounced` true, `CheckStartAnnounced`
false, `now ≥ start + 1min` — yet CheckStarted does not fire, because the code
demands `now.After(start + 1min)` strictly (this pass fires Remind instead). -/
theorem checkStarted_not_at_one_minute :
    scheduledForToday evC6 32460000000000 = true ∧
    evC6.StartAnnounced = true ∧
    evC6.CheckStartAnnounced = false ∧
    (32460000000000 : Int) = evC6.Event.StartTime + timeMinute ∧
    decideEvent 3 evC6 32460000000000 ≠ some Decision.checkStarted := by decide

/-- C6 (amended): CheckStarted fires iff the event is scheduled for today,
`StartAnnounced` is true, `CheckStartAnnounced` is false, and `now` is STRICTLY
after `start + 1 minute`. -/
theorem checkStarted_fires_iff (repeats : Int) (e : LocalEvent) (now : Int) :
    decideEvent repeats e now = some Decision.checkStarted ↔
      (scheduledForToday e now = true ∧ e.StartAnnounced = true ∧
       e.CheckStartAnnounced = false ∧ e.Event.StartTime + timeMinute < now) := by
  rw [decideEvent_eq_checkStarted]
  constructor
  · intro h
    exact (shouldCheckEventStarted_iff e now).mp h.2
  · intro h
    have h2 : shouldCheckEventStarted e now = true :=
      (shouldCheckEventStarted_iff e now).mpr h
    exact ⟨checkStarted_precludes_announceStart e now h2, h2⟩

/-!
## C4: the Remind interval
-/

/-- Event from 10:00 to 11:00 on day 0, last reminded at 10:00 sharp. -/
def evC4a : LocalEvent :=
  { Event := { ID := "c4a", StartTime := 36000000000000, EndTime := 39600000000000,
               TimeZone := "", Description := "interval" },
    StartAnnounced := true, CheckStartAnnounced := true, EndAnnounced := false,
    LastTimeReminded := 36000000000000 }

/-- Event from instant 1 to instant 100, never reminded. -/
def evC4b : LocalEvent :=
  { Event := { ID := "c4b", StartTime := 1, EndTime := 100,
               TimeZone := "", Description := "zero-lastreminded" },
    StartAnnounced := true, CheckStartAnnounced := true, EndAnnounced := false,
    LastTimeReminded := 0 }

/-- C4 counterexample, refuting both halves of the claim's firing disjunct.
First input: start 10:00, end 11:00, repeats 3 (interval 20 min), last reminded
at 10:00; at `now = 10:20 = LastTimeReminded + interval` exactly the claim says
Remind fires (`now ≥ LastTimeReminded + interval`) but `shouldRemindEvent`
demands `now.After(...)` strictly and stays false.  Second input: an event on
`[1, 100]` with `LastTimeReminded` equal to the zero timestamp at `now = 20`;
the claim's "LastTimeReminded is zero" disjunct says Remind fires, but the code
has no zero-timestamp branch and requires `now > 0 + (99 / 3) = 33`. -/
theorem remind_not_at_claimed_bounds :
    (evC4a.EndAnnounced = false ∧ evC4a.Event.EndTime ≠ 0 ∧
     evC4a.Event.StartTime ≤ 37200000000000 ∧
     (37200000000000 : Int) ≤ evC4a.Event.EndTime ∧
     (37200000000000 : Int) = evC4a.LastTimeReminded +
       Int.tdiv (evC4a.Event.EndTime - evC4a.Event.StartTime) (normalizeRepeats 3) ∧
     shouldRemindEvent (normalizeRepeats 3) evC4a 37200000000000 = false) ∧
    (evC4b.LastTimeReminded = 0 ∧ evC4b.EndAnnounced = false ∧
     evC4b.Event.EndTime ≠ 0 ∧ evC4b.Event.StartTime ≤ 20 ∧
     (20 : Int) ≤ evC4b.Event.EndTime ∧
     shouldRemindEvent (normalizeRepeats 3) evC4b 20 = false) := by decide

/-- C4 (amended): with the configured repeat count normalized (non-positive
values fall back to 3), the Remind rule fires iff `EndAnnounced` is false, the
end time is defined, `start ≤ now ≤ end`, and `now` is STRICTLY after
`LastTimeReminded + (end - start) / repeats`; there is no special case for a
zero `LastTimeReminded` — the zero timestamp merely makes the threshold
`0 + interval`, which any present-day `now` exceeds. -/
theorem remind_fires_iff (config : Int) (e : LocalEvent) (now : Int) :
    shouldRemindEvent (normalizeRepeats config) e now = true ↔
      (e.EndAnnounced = false ∧ e.Event.EndTime ≠ 0 ∧
       e.Event.StartTime ≤ now ∧ now ≤ e.Event.EndTime ∧
       e.LastTimeReminded +
         Int.tdiv (e.Event.EndTime - e.Event.StartTime) (normalizeRepeats config) < now) :=
  shouldRemindEvent_iff (normalizeRepeats config) e now

/-!
## C5: the AnnounceEnd window
-/

/-- Event from 14:00 to 14:30 on day 0, end not announced. -/
def evC5 : LocalEvent :=
  { Event := { ID := "c5", StartTime := 50400000000000, EndTime := 52200000000000,
               TimeZone := "", Description := "endwindow" },
    StartAnnounced := true, CheckStartAnnounced := true, EndAnnounced := false,
    LastTimeReminded := 52080000000000 }

/-- C5 counterexample: at `now = end - 1 minute` exactly (14:29 for an event
ending 14:30), every condition of the claim holds — `EndAnnounced` false,
scheduled for today, `now` inside the claimed inclusive window
`[end - 1min, end + 1min]` — yet `shouldAnnounceEventEnd` is false, because
`scheduledNearEnd` demands `now.After(end - 1min)` strictly. -/
theorem announceEnd_not_at_window_edge :
    evC5.EndAnnounced = false ∧
    scheduledForToday evC5 52140000000000 = true ∧
    evC5.Event.EndTime ≠ 0 ∧
    (52140000000000 : Int) = evC5.Event.EndTime - timeMinute ∧
    shouldAnnounceEventEnd evC5 52140000000000 = false := by decide

/-- C5 (amended): for an event with a defined end time, the AnnounceEnd rule
fires iff `EndAnnounced` is false, the event is scheduled for today, and `now`
lies in the OPEN interval `(end - 1min, end + 1min)` — both window edges
excluded.  (Whether the decision is actually taken in a tick is further subject
to the priority order settled in C1.) -/
theorem announceEnd_fires_iff (e : LocalEvent) (now : Int) :
    shouldAnnounceEventEnd e now = true ↔
      (e.EndAnnounced = false ∧ scheduledForToday e now = true ∧
       e.Event.EndTime ≠ 0 ∧
       e.Event.EndTime - timeMinute < now ∧ now < e.Event.EndTime + timeMinute) :=
  shouldAnnounceEventEnd_iff e now

/-!
## C9: events with no end time
-/

/-- Zero-end event starting 10:00 on day 0, nothing announced. -/
def evC9 : LocalEvent :=
  { Event := { ID := "c9", StartTime := 36000000000000, EndTime := 0,
               TimeZone := "", Description := "no-end" },
    StartAnnounced := false, CheckStartAnnounced := false, EndAnnounced := false,
    LastTimeReminded := 0 }

/-- Zero-end event starting 10:00 on day 0 whose start was already announced. -/
def evC9s : LocalEvent :=
  { Event := { ID := "c9s", StartTime := 36000000000000, EndTime := 0,
               TimeZone := "", Description := "no-end-checked" },
    StartAnnounced := true, CheckStartAnnounced := false, EndAnnounced := false,
    LastTimeReminded := 0 }

/-- C9 counterexample: a zero-end event that is scheduled for today, has
`StartAnnounced = false` and whose start has arrived (10:01) is NOT eligible
for the start announcement — the pass takes no decision at all for it
(`scheduledForNow` needs `now.Before(end) = now < 0`), and `loadTodayEvents`
does not even keep it in the working set (`now.After(0)` holds). -/
theorem zero_end_event_not_eligible_for_start :
    evC9.Event.EndTime = 0 ∧
    evC9.StartAnnounced = false ∧
    scheduledForToday evC9 36060000000000 = true ∧
    evC9.Event.StartTime ≤ 36060000000000 ∧
    decideEvent 3 evC9 36060000000000 = none ∧
    keptByLoad evC9 36060000000000 = false := by decide

/-- C9 (amended): an event whose end time is the zero timestamp never produces
Remind or AnnounceEnd; but at any positive `now` (any actual clock reading) it
never produces AnnounceStart either, and is not even kept in the working set
`loadTodayEvents` returns; the only decision it can still produce is
CheckStarted, and only when its `StartAnnounced` flag was already true. -/
theorem zero_end_event_decisions (repeats : Int) (e : LocalEvent) (now : Int)
    (hend : e.Event.EndTime = 0) (hnow : 0 < now) :
    decideEvent repeats e now ≠ some Decision.remind ∧
    decideEvent repeats e now ≠ some Decision.announceEnd ∧
    decideEvent repeats e now ≠ some Decision.announceStart ∧
    (∀ d, decideEvent repeats e now = some d →
      d = Decision.checkStarted ∧ e.StartAnnounced = true) ∧
    keptByLoad e now = false := by
  have h1 : shouldAnnounceEventStart e now = false := by
    have := shouldAnnounceEventStart_iff e now
    cases h : shouldAnnounceEventStart e now
    · rfl
    · exfalso
      rcases this.mp h with ⟨_, _, _, _, hlt⟩
      omega
  have h3 : shouldRemindEvent repeats e now = false := by
    have := shouldRemindEvent_iff repeats e now
    cases h : shouldRemindEvent repeats e now
    · rfl
    · exact absurd hend (this.mp h).2.1
  have h4 : shouldAnnounceEventEnd e now = false := by
    have := shouldAnnounceEventEnd_iff e now
    cases h : shouldAnnounceEventEnd e now
    · rfl
    · exact absurd hend (this.mp h).2.2.1
  have hkept : keptByLoad e now = false := by
    simp [keptByLoad, timeAfter, hend]
    intro h
    omega
  refine ⟨?_, ?_, ?_, ?_, hkept⟩ <;>
    cases h2 : shouldCheckEventStarted e now <;>
      simp [decideEvent, tickEvent, h1, h2, h3, h4]
  exact ((shouldCheckEventStarted_iff e now).mp h2).2.1

/-- Witness for C9: the amended theorem applied to a concrete zero-end event
whose start was already announced, at 10:02 of its day. -/
theorem zero_end_event_decisions_applied :
    evC9s.Event.EndTime = 0 ∧ (0 : Int) < 36120000000000 ∧
    (decideEvent 3 evC9s 36120000000000 ≠ some Decision.remind ∧
     decideEvent 3 evC9s 36120000000000 ≠ some Decision.announceEnd ∧
     decideEvent 3 evC9s 36120000000000 ≠ some Decision.announceStart ∧
     (∀ d, decideEvent 3 evC9s 36120000000000 = some d →
       d = Decision.checkStarted ∧ evC9s.StartAnnounced = true) ∧
     keptByLoad evC9s 36120000000000 = false) :=
  ⟨rfl, by decide, zero_end_event_decisions 3 evC9s 36120000000000 rfl (by decide)⟩

/-!
## Store lemmas
-/

/-- Overwriting one record file changes the lookup of exactly that identifier. -/
theorem findRecord_writeStore (s : Store) (k : String) (v : RawRecord) (i : String) :
    findRecord (writeStore s k v) i = if i = k then some v else findRecord s i := by
  induction s with
  | nil =>
    rcases eq_or_ne i k with h | h
    · subst h; simp [writeStore, findRecord]
    · simp [writeStore, findRecord, h, Ne.symm h]
  | cons kv rest ih =>
    obtain ⟨k', v'⟩ := kv
    rcases eq_or_ne k' k with hk | hk
    · subst hk
      rcases eq_or_ne i k' with h | h
      · subst h; simp [writeStore, findRecord]
      · simp [writeStore, findRecord, h, Ne.symm h]
    · rcases eq_or_ne k' i with h | h
      · have hik : ¬ i = k := fun hh => hk (h.trans hh)
        simp [writeStore, findRecord, hk, h, hik]
      · simp [writeStore, findRecord, hk, h, ih]

/-- Overwriting a record file with the value it already holds leaves the
directory unchanged. -/
theorem writeStore_existing_value (s : Store) (k : String) (v : RawRecord)
    (h : findRecord s k = some v) : writeStore s k v = s := by
  induction s with
  | nil => simp [findRecord] at h
  | cons kv rest ih =>
    obtain ⟨k', v'⟩ := kv
    rcases eq_or_ne k' k with hk | hk
    · subst hk
      simp [findRecord] at h
      simp [writeStore, h]
    · simp [findRecord, hk] at h
      simp [writeStore, hk, ih h]

/-!
## C7: carry-forward and idempotence of Save
-/

/-- C7: when a record with the same identifier already exists and parses,
`saveEventLocally` writes the fresh calendar snapshot with the existing
record's four lifecycle fields carried forward; and saving the same event
twice in a row produces the same store as saving it once. -/
theorem save_carries_forward_and_idempotent (store : Store) (ev : CalendarEvent)
    (ex : LocalEvent) (h : findRecord store ev.ID = some (RawRecord.valid ex)) :
    findRecord (saveEventLocally store ev) ev.ID = some (RawRecord.valid
      { Event := ev, StartAnnounced := ex.StartAnnounced,
        CheckStartAnnounced := ex.CheckStartAnnounced,
        EndAnnounced := ex.EndAnnounced, LastTimeReminded := ex.LastTimeReminded }) ∧
    saveEventLocally (saveEventLocally store ev) ev = saveEventLocally store ev := by
  have hsaved : savedRecord store ev =
      { Event := ev, StartAnnounced := ex.StartAnnounced,
        CheckStartAnnounced := ex.CheckStartAnnounced,
        EndAnnounced := ex.EndAnnounced, LastTimeReminded := ex.LastTimeReminded } := by
    simp [savedRecord, loadEvent, h]
  have hfind : findRecord (saveEventLocally store ev) ev.ID =
      some (RawRecord.valid (savedRecord store ev)) := by
    rw [saveEventLocally, findRecord_writeStore]
    simp
  refine ⟨by rw [hfind, hsaved], ?_⟩
  have hsaved2 : savedRecord (saveEventLocally store ev) ev = savedRecord store ev := by
    rw [savedRecord, loadEvent, hfind, hsaved]
  rw [saveEventLocally, hsaved2]
  exact writeStore_existing_value _ _ _ hfind

/-- Existing record of identifier "a" with all lifecycle flags set. -/
def exW7 : LocalEvent :=
  { Event := { ID := "a", StartTime := 36000000000000, EndTime := 39600000000000,
               TimeZone := "", Description := "old snapshot" },
    StartAnnounced := true, CheckStartAnnounced := true, EndAnnounced := false,
    LastTimeReminded := 37200000000000 }

/-- Re-fetched calendar snapshot of the same identifier "a" with moved times. -/
def evW7 : CalendarEvent :=
  { ID := "a", StartTime := 36600000000000, EndTime := 40200000000000,
    TimeZone := "", Description := "new snapshot" }

/-- Store holding the one existing record of identifier "a". -/
def storeW7 : Store := [("a", RawRecord.valid exW7)]

/-- Witness for C7: the carry-forward and idempotence theorem applied to a
concrete store and a re-fetched event with the same identifier. -/
theorem save_carries_forward_applied :
    findRecord (saveEventLocally storeW7 evW7) evW7.ID = some (RawRecord.valid
      { Event := evW7, StartAnnounced := exW7.StartAnnounced,
        CheckStartAnnounced := exW7.CheckStartAnnounced,
        EndAnnounced := exW7.EndAnnounced, LastTimeReminded := exW7.LastTimeReminded }) ∧
    saveEventLocally (saveEventLocally storeW7 evW7) evW7 = saveEventLocally storeW7 evW7 :=
  save_carries_forward_and_idempotent storeW7 evW7 exW7 (by decide)

/-!
## C8: reconciliation leaves exactly the remote identifiers
-/

/-- Lookup after `saveEventLocally`: unchanged except at the saved identifier. -/
theorem findRecord_saveEventLocally (s : Store) (ev : CalendarEvent) (i : String) :
    findRecord (saveEventLocally s ev) i =
      if i = ev.ID then some (RawRecord.valid (savedRecord s ev)) else findRecord s i :=
  findRecord_writeStore s ev.ID _ i

/-- Presence after step 1 of reconciliation: an identifier has a record after
all the saves iff it is one of the batch identifiers or was present before. -/
theorem foldl_save_presence (events : List CalendarEvent) (s : Store) (i : String) :
    (findRecord (events.foldl saveEventLocally s) i).isSome = true ↔
      (i ∈ events.map CalendarEvent.ID ∨ (findRecord s i).isSome = true) := by
  induction events generalizing s with
  | nil => simp
  | cons ev rest ih =>
    simp only [List.foldl_cons, List.map_cons, List.mem_cons]
    rw [ih]
    rcases eq_or_ne i ev.ID with h | h <;>
      simp [findRecord_saveEventLocally, h]

/-- Lookup after step 2 of reconciliation: pruning keeps an identifier's record
iff some batch event carries that identifier. -/
theorem findRecord_remove (s : Store) (events : List CalendarEvent) (i : String) :
    findRecord (removeLocalEventsNotInCalendar s events) i =
      cond (events.any (fun ev => ev.ID == i)) (findRecord s i) none := by
  induction s with
  | nil =>
    cases hp : events.any (fun ev => ev.ID == i) <;>
      simp [removeLocalEventsNotInCalendar, findRecord, hp]
  | cons kv rest ih =>
    obtain ⟨k, v⟩ := kv
    simp only [removeLocalEventsNotInCalendar, List.filter_cons] at ih ⊢
    rcases eq_or_ne k i with rfl | hk
    · cases hp : events.any (fun ev => ev.ID == k)
      · simp only [hp, Bool.false_eq_true, if_false, ih, cond_false]
      · simp only [hp, if_true, cond_true, findRecord, if_pos rfl]
    · cases hp : events.any (fun ev => ev.ID == k) <;>
      cases hpi : events.any (fun ev => ev.ID == i) <;>
        simp only [hp, hpi, Bool.false_eq_true, if_false, if_true, cond_false, cond_true,
          findRecord, if_neg hk] <;>
        simp only [hpi, cond_false, cond_true] at ih <;>
        simp [findRecord, hk, ih]

/-- Batch membership test of `removeLocalEventsNotInCalendar`, as identifier
membership. -/
theorem any_id_beq_iff (events : List CalendarEvent) (i : String) :
    events.any (fun ev => ev.ID == i) = true ↔ i ∈ events.map CalendarEvent.ID := by
  simp [List.any_eq_true, List.mem_map]

/-- C8: after `syncLocalEvents` the store holds a record exactly for the
identifiers of the remote batch — every remote event's record is present
(step 2 never deletes what step 1 just wrote, since deletion compares
identifier sets), and every identifier absent from the batch is gone. -/
theorem sync_store_ids_eq_remote_ids (store : Store) (events : List CalendarEvent)
    (i : String) :
    (findRecord (syncLocalEvents store events) i).isSome = true ↔
      i ∈ events.map CalendarEvent.ID := by
  rw [syncLocalEvents, findRecord_remove]
  cases hp : events.any (fun ev => ev.ID == i)
  · simp only [cond_false, Option.isSome_none, Bool.false_eq_true, false_iff]
    intro hh
    exact absurd ((any_id_beq_iff events i).mpr hh) (by simp [hp])
  · rw [cond_true, foldl_save_presence]
    have hmem := (any_id_beq_iff events i).mp hp
    tauto

/-!
## C2: corrupt records abort the whole load
-/

/-- The working set a corrupt-free directory yields: the parsed events that are
scheduled for today and not yet finished, in directory order. -/
def todayWorkingSet (files : List RawRecord) (now : Int) : List LocalEvent :=
  files.filterMap (fun f =>
    match f with
    | RawRecord.corrupt => none
    | RawRecord.valid e => if keptByLoad e now then some e else none)

/-- A valid record of an event running 10:00-11:00 on day 0. -/
def evC2 : LocalEvent :=
  { Event := { ID := "good", StartTime := 36000000000000, EndTime := 39600000000000,
               TimeZone := "", Description := "valid record" },
    StartAnnounced := false, CheckStartAnnounced := false, EndAnnounced := false,
    LastTimeReminded := 0 }

/-- C2 counterexample: a directory with one valid record that qualifies for
today's working set (checked at 10:10 of its day) and one corrupt record makes
`loadTodayEvents` fail outright — it returns an error and no events, instead of
returning the valid record and skipping the corrupt one. -/
theorem loadTodayEvents_corrupt_aborts_batch :
    keptByLoad evC2 36600000000000 = true ∧
    loadTodayEvents [RawRecord.valid evC2, RawRecord.corrupt] 36600000000000 =
      Except.error "failed to load event" := ⟨by decide, rfl⟩

/-- C2 (amended): `loadTodayEvents` returns an error exactly when some record
of the directory is corrupt — a single corrupt record aborts the whole batch
(the caller merely logs the error and continues with no events); only a
corrupt-free directory yields the working set of today's unfinished events. -/
theorem loadTodayEvents_error_iff_corrupt (files : List RawRecord) (now : Int) :
    (loadTodayEvents files now = Except.error "failed to load event" ↔
      RawRecord.corrupt ∈ files) ∧
    (RawRecord.corrupt ∉ files →
      loadTodayEvents files now = Except.ok (todayWorkingSet files now)) := by
  induction files with
  | nil => simp [loadTodayEvents, todayWorkingSet]
  | cons f rest ih =>
    cases f with
    | corrupt => simp [loadTodayEvents]
    | valid e =>
      have hmem : (RawRecord.corrupt ∈ RawRecord.valid e :: rest) ↔
          RawRecord.corrupt ∈ rest := by simp
      cases hsft : scheduledForToday e now with
      | false =>
        have hskip : loadTodayEvents (RawRecord.valid e :: rest) now =
            loadTodayEvents rest now := by
          simp [loadTodayEvents, hsft]
        have hkept : keptByLoad e now = false := by simp [keptByLoad, hsft]
        rw [hskip]
        simp only [todayWorkingSet, List.filterMap_cons, hkept, Bool.false_eq_true,
          if_false, hmem]
        exact ih
      | true =>
        cases hta : timeAfter now e.Event.EndTime with
        | true =>
          have hskip : loadTodayEvents (RawRecord.valid e :: rest) now =
              loadTodayEvents rest now := by
            simp [loadTodayEvents, hsft, hta]
          have hkept : keptByLoad e now = false := by simp [keptByLoad, hsft, hta]
          rw [hskip]
          simp only [todayWorkingSet, List.filterMap_cons, hkept, Bool.false_eq_true,
            if_false, hmem]
          exact ih
        | false =>
          have hkept : keptByLoad e now = true := by simp [keptByLoad, hsft, hta]
          have hstep : loadTodayEvents (RawRecord.valid e :: rest) now =
              (match loadTodayEvents rest now with
               | Except.error msg => Except.error msg
               | Except.ok tail => Except.ok (e :: tail)) := by
            simp [loadTodayEvents, hsft, hta]
          rw [hstep]
          simp only [todayWorkingSet, List.filterMap_cons, hkept, if_true, hmem]
          cases hres : loadTodayEvents rest now with
          | error msg =>
            rw [hres] at ih
            constructor
            · simpa using ih.1
            · intro hnc
              exact absurd (ih.2 hnc) (by simp)
          | ok tail =>
            rw [hres] at ih
            constructor
            · simp only [reduceCtorEq, false_iff]
              intro hc
              exact absurd (ih.1.mpr hc) (by simp)
            · intro hnc
              have := ih.2 hnc
              simp only [Except.ok.injEq] at this
              simp [todayWorkingSet, this]

/-- Witness for C2: the amended theorem applied to a concrete corrupt-free
directory holding one qualifying record. -/
theorem loadTodayEvents_clean_applied :
    loadTodayEvents [RawRecord.valid evC2] 36600000000000 =
      Except.ok (todayWorkingSet [RawRecord.valid evC2] 36600000000000) :=
  (loadTodayEvents_error_iff_corrupt [RawRecord.valid evC2] 36600000000000).2 (by decide)

/-!
## C10: the write mechanism of the Event Store
-/

/-- Re-fetched calendar snapshot used to exercise the store's write path. -/
def evC10 : CalendarEvent :=
  { ID := "ev1", StartTime := 36000000000000, EndTime := 39600000000000,
    TimeZone := "", Description := "write mechanism" }

/-- In-memory record whose flag update is persisted by `updateEvent`. -/
def leC10 : LocalEvent :=
  { Event := evC10, StartAnnounced := true, CheckStartAnnounced := false,
    EndAnnounced := false, LastTimeReminded := 0 }

/-- C10 counterexample: the record writes of the Event Store are single plain
`os.WriteFile` calls straight to the target `<ID>.json` — they are not of the
write-to-temporary-then-rename shape the claim asserts, while the repository's
own `writeFileAtomically` (used only for the web editor's config and secrets
files) is of exactly that shape. -/
theorem event_store_write_not_temp_rename :
    saveEventLocallyOps ([] : Store) evC10 =
      [FsOp.writeFile "ev1.json" (savedRecord ([] : Store) evC10)] ∧
    specAtomicWrite (saveEventLocallyOps ([] : Store) evC10) "ev1.json" = false ∧
    updateEventOps leC10 = [FsOp.writeFile "ev1.json" leC10] ∧
    specAtomicWrite (updateEventOps leC10) "ev1.json" = false ∧
    specAtomicWrite (writeFileAtomically "config.yaml" "42" leC10) "config.yaml" = true :=
  ⟨rfl, rfl, rfl, rfl, by decide⟩

/-- C10 (amended): every record write of the Event Store — `saveEventLocally`
and the flag updates via `updateEvent` — is one direct `os.WriteFile` to the
final `<ID>.json` path, with no temporary file and no rename; the
temp-then-rename helper `writeFileAtomically` exists in the repository but the
Event Store does not use it, so a crash mid-write can leave a half-written
record.  (Durability/fsync behaviour is outside this embedding.) -/
theorem event_store_writes_are_direct (store : Store) (ev : CalendarEvent)
    (e : LocalEvent) :
    saveEventLocallyOps store ev =
      [FsOp.writeFile (ev.ID ++ ".json") (savedRecord store ev)] ∧
    updateEventOps e = [FsOp.writeFile (e.Event.ID ++ ".json") e] ∧
    specAtomicWrite (saveEventLocallyOps store ev) (ev.ID ++ ".json") = false ∧
    specAtomicWrite (updateEventOps e) (e.Event.ID ++ ".json") = false :=
  ⟨rfl, rfl, rfl, rfl⟩
